import Mathlib

/-!
Shallow embedding of the markdownlang core (structural transformer,
expression evaluator, interpreter/runtime) for checking the specification
claims.  Sources embedded:

* `packages/core/src/interpreter/type-guards.ts` (error classes, coercions)
* `packages/core/src/interpreter/evaluator.ts` (expression evaluation)
* `src/src/interpreter/runtime.ts` and `src/src/interpreter/index.ts`
  (runtime state, statement execution, tail-call trampoline)
* the mdast-to-program structural transformer (`mdastToProgram`)

Modelling conventions, stated once:

* JavaScript numbers are IEEE-754 doubles; they are modelled as `Int`.
  No claim under verification depends on non-integral arithmetic; `/` and
  the numeral check of `Number(string)` are modelled on integers
  (`Int.tdiv`, `Int.tmod` match the truncating JS `/` on exact values).
* The JS array `Runtime.callStack` is used as a stack (push/pop at the
  end); it is modelled as a Lean list with the top frame at the head.
* Mutation is modelled by explicit state passing; a thrown JS exception
  is `Except.error`; the source interpreter is partial (a document can
  loop forever), so execution takes a fuel parameter and every recursive
  layer consumes one unit; exhaustion is `RunError.outOfFuel`, kept
  distinct from program errors.
* External collaborators (file system, module cache, network) appear as
  an explicit resolver function passed to the interpreter, and the
  external expression parser (jsep) as a `String → Expr` parameter of the
  transformer.
-/

/-- Runtime value: `string | number | boolean | null | undefined`
(`packages/core/src/types.ts`). -/
inductive RuntimeValue where
  | str (s : String)
  | num (n : Int)
  | bool (b : Bool)
  | null
  | undefined
deriving Repr, DecidableEq

/-- JS `typeof` on a runtime value (`typeof null` is `"object"`). -/
def jsTypeof : RuntimeValue → String
  | .str _ => "string"
  | .num _ => "number"
  | .bool _ => "boolean"
  | .null => "object"
  | .undefined => "undefined"

/-- JS `String(v)` / template-literal rendering of a runtime value. -/
def jsString : RuntimeValue → String
  | .str s => s
  | .num n => toString n
  | .bool true => "true"
  | .bool false => "false"
  | .null => "null"
  | .undefined => "undefined"

/-- JS `v ?? fallback` fires exactly on `null` and `undefined`. -/
def nullish : RuntimeValue → Bool
  | .null => true
  | .undefined => true
  | _ => false

/-- JS `String(v ?? "")`: the rendering used on each side of `+`
concatenation, where an absent value renders as the empty string. -/
def strOrEmpty (v : RuntimeValue) : String :=
  if nullish v then "" else jsString v

/-- JS truthiness of a runtime value. -/
def truthy : RuntimeValue → Bool
  | .str s => !(s = "")
  | .num n => !(n = 0)
  | .bool b => b
  | .null => false
  | .undefined => false

/-- Whitespace trimming on the character list (the model of JS
`String.prototype.trim` and of Lean-side `.trim`, implemented on
characters so that it evaluates inside the kernel). -/
def jsTrim (s : String) : String :=
  String.mk
    (((s.toList.dropWhile Char.isWhitespace).reverse.dropWhile
      Char.isWhitespace).reverse)

/-- Decimal digit-run parsing: `some` of the value when the characters
are one or more digits. -/
def digitsToNat (cs : List Char) : Option Nat :=
  if !cs.isEmpty && cs.all Char.isDigit then
    some (cs.foldl (fun acc c => acc * 10 + (c.toNat - 48)) 0)
  else none

/-- Signed decimal numeral parsing over characters. -/
def parseSignedInt : List Char → Option Int
  | '-' :: rest => (digitsToNat rest).map (fun n => -(n : Int))
  | '+' :: rest => (digitsToNat rest).map (fun n => (n : Int))
  | rest => (digitsToNat rest).map (fun n => (n : Int))

/-- JS `Number(s)` restricted to the integer numerals of the model:
surrounding whitespace is ignored, the empty string is `0`, a signed
decimal integer numeral is its value, anything else is NaN (`none`). -/
def jsStringToNumber (s : String) : Option Int :=
  let t := (jsTrim s).toList
  if t.isEmpty then some 0 else parseSignedInt t

/-- Thrown error object: its `name` and its final `message`. -/
structure ErrObj where
  name : String
  message : String
deriving Repr, DecidableEq

/-- `Line ${line}: ${message}` prefix applied by the error classes in
`type-guards.ts` when a line is known. -/
def lineTag (line : Option Nat) (message : String) : String :=
  match line with
  | some l => "Line " ++ toString l ++ ": " ++ message
  | none => message

/-- `RuntimeTypeError` constructor from `type-guards.ts`. -/
def runtimeTypeError (message : String) (line : Option Nat) : ErrObj :=
  { name := "RuntimeTypeError", message := lineTag line message }

/-- `UndeclaredVariableError` constructor from `type-guards.ts`: the
message names the variable and instructs how to declare it. -/
def undeclaredVariableError (variableName : String) (line : Option Nat) : ErrObj :=
  { name := "UndeclaredVariableError",
    message := lineTag line
      ("Variable \x27" ++ variableName ++ "\x27 is not declared. Use \x27- " ++
        variableName ++ " = value\x27 to declare it.") }

/-- A plain JS `Error`. -/
def jsError (message : String) : ErrObj :=
  { name := "Error", message := message }

/-- The message body of `expectNumber`'s type error. -/
def expectNumberMsg (value : RuntimeValue) (context : String) : String :=
  "Expected number for " ++ context ++ ", got " ++ jsTypeof value ++
    " (" ++ jsString value ++ ")"

/-- `expectNumber` from `type-guards.ts`: a numeral-looking string
coerces to its number, an actual number passes, everything else (booleans
included) raises a `RuntimeTypeError` naming the context. -/
def expectNumber (value : RuntimeValue) (context : String) (line : Option Nat) :
    Except ErrObj Int :=
  match value with
  | .str s =>
    match jsStringToNumber s with
    | some n => .ok n
    | none => .error (runtimeTypeError (expectNumberMsg (.str s) context) line)
  | .num n => .ok n
  | v => .error (runtimeTypeError (expectNumberMsg v context) line)

/-- `expectStringOrNumber` from `type-guards.ts` (member-access index):
strings and numbers pass, a boolean coerces to `Number(b)`. -/
def expectStringOrNumber (value : RuntimeValue) (context : String) (line : Option Nat) :
    Except ErrObj RuntimeValue :=
  match value with
  | .str s => .ok (.str s)
  | .num n => .ok (.num n)
  | .bool b => .ok (.num (if b then 1 else 0))
  | v => .error (runtimeTypeError
      ("Expected string or number for " ++ context ++ ", got " ++ jsTypeof v ++
        " (" ++ jsString v ++ ")") line)

mutual
/-- Expression tree as delivered by the external expression parser plus
the custom `TemplateLiteral` node (`packages/core/src/types.ts`). -/
inductive Expr where
  | lit (value : RuntimeValue)
  | ident (name : String)
  | binary (operator : String) (left right : Expr)
  | unary (operator : String) (argument : Expr)
  | memberDot (object : Expr) (propertyName : String)
  | memberComputed (object : Expr) (property : Expr)
  | template (parts : List TemplatePart)
deriving Repr

/-- One part of an interpolated text run. -/
inductive TemplatePart where
  | literal (value : String)
  | expression (expr : Expr)
deriving Repr
end

/-- One call frame: variable namespace plus the declared-variable set
(`packages/core/src/types.ts`, `CallFrame`). -/
structure CallFrame where
  functionName : String
  vars : List (String × RuntimeValue)
  declaredVariables : List String
deriving Repr

/-- Runtime session state (`runtime.ts`): call stack (top frame first,
see the header note), accumulated output, the shared break flag, and the
synchronous input buffer with its cursor. -/
structure Runtime where
  callStack : List CallFrame
  output : List RuntimeValue
  breakFlag : Bool
  inputBuffer : List RuntimeValue
  inputIndex : Nat
deriving Repr

/-- Key lookup in a JS object modelled as an association list. -/
def lookupVar : List (String × RuntimeValue) → String → Option RuntimeValue
  | [], _ => none
  | (k, v) :: rest, name => if k = name then some v else lookupVar rest name

/-- Key assignment in a JS object: overwrite in place or append. -/
def listSet : List (String × RuntimeValue) → String → RuntimeValue →
    List (String × RuntimeValue)
  | [], name, value => [(name, value)]
  | (k, v) :: rest, name, value =>
    if k = name then (k, value) :: rest else (k, v) :: listSet rest name value

/-- `Runtime.currentFrame`: the top of the call stack. -/
def Runtime.currentFrame (rt : Runtime) : Option CallFrame :=
  rt.callStack.head?

/-- `Runtime.getVariable`: reads from the current frame; an unbound name
or an empty call stack yields `undefined`, never an error. -/
def Runtime.getVariable (rt : Runtime) (name : String) : RuntimeValue :=
  match rt.callStack.head? with
  | some frame =>
    match lookupVar frame.vars name with
    | some v => v
    | none => .undefined
  | none => .undefined

/-- Modelled from the spec: the current `packages/core` runtime's
`Runtime.setVariable` (the file is absent from the sources; only its
interface, its error class and its tests are present).  Per spec §4.2/§7
assigning to a name not previously declared in the current frame signals
an `UndeclaredVariableError`; a declared name is overwritten in place.
With no frame the write is a no-op as in the legacy runtime. -/
def Runtime.setVariable (rt : Runtime) (name : String) (value : RuntimeValue) :
    Except ErrObj Runtime :=
  match rt.callStack with
  | [] => .ok rt
  | frame :: rest =>
    if frame.declaredVariables.contains name then
      .ok { rt with callStack :=
        { frame with vars := listSet frame.vars name value } :: rest }
    else
      .error (undeclaredVariableError name none)

/-- Modelled from the spec: `Runtime.declareVariable` of the current
runtime interface (declaration via a list construct marks the name
declared and stores its initial value, independent of assignment). -/
def Runtime.declareVariable (rt : Runtime) (name : String) (value : RuntimeValue) :
    Runtime :=
  match rt.callStack with
  | [] => rt
  | frame :: rest =>
    { rt with callStack :=
      { frame with
        vars := listSet frame.vars name value,
        declaredVariables :=
          if frame.declaredVariables.contains name then frame.declaredVariables
          else frame.declaredVariables ++ [name] } :: rest }

/-- `Runtime.print`: append to the accumulated output sequence. -/
def Runtime.print (rt : Runtime) (value : RuntimeValue) : Runtime :=
  { rt with output := rt.output ++ [value] }

/-- `Runtime.setBreak`: set the shared break flag (never cleared by the
interpreter). -/
def Runtime.setBreak (rt : Runtime) : Runtime :=
  { rt with breakFlag := true }

/-- `Runtime.readInput` (sync mode): next buffered value, or `null` when
the buffer is exhausted. -/
def Runtime.readInput (rt : Runtime) : RuntimeValue × Runtime :=
  if h : rt.inputIndex < rt.inputBuffer.length then
    (rt.inputBuffer.get ⟨rt.inputIndex, h⟩, { rt with inputIndex := rt.inputIndex + 1 })
  else
    (.null, rt)

/-- JS loose equality `==` on the value model: `null == undefined`, a
string compares with a number through `Number(string)`, a boolean
coerces to its number first. -/
def jsLooseEq : RuntimeValue → RuntimeValue → Bool
  | .str a, .str b => a = b
  | .num a, .num b => a = b
  | .bool a, .bool b => a = b
  | .null, .null => true
  | .undefined, .undefined => true
  | .null, .undefined => true
  | .undefined, .null => true
  | .str s, .num n => (jsStringToNumber s).elim false (· = n)
  | .num n, .str s => (jsStringToNumber s).elim false (· = n)
  | .bool b, .str s => (jsStringToNumber s).elim false (· = (if b then 1 else 0))
  | .str s, .bool b => (jsStringToNumber s).elim false (· = (if b then 1 else 0))
  | .bool b, .num n => (if b then (1 : Int) else 0) = n
  | .num n, .bool b => (if b then (1 : Int) else 0) = n
  | _, _ => false

/-- JS strict equality `===`: kind and value must match. -/
def jsStrictEq : RuntimeValue → RuntimeValue → Bool
  | .str a, .str b => a = b
  | .num a, .num b => a = b
  | .bool a, .bool b => a = b
  | .null, .null => true
  | .undefined, .undefined => true
  | _, _ => false

/-- JS string indexing `s[i]`: the one-character string, or `undefined`
out of range. -/
def jsStringIndex (s : String) (i : Int) : RuntimeValue :=
  if 0 ≤ i then
    match s.toList[i.toNat]? with
    | some c => .str (String.singleton c)
    | none => .undefined
  else
    .undefined

/-- The operator switch of `evaluateBinaryExpression`, applied after
both operands have been evaluated. -/
def applyBinaryOperator (op : String) (left right : RuntimeValue)
    (line : Option Nat) : Except ErrObj RuntimeValue :=
  if op = "+" then
    match left, right with
    | .str _, _ => .ok (.str (strOrEmpty left ++ strOrEmpty right))
    | _, .str _ => .ok (.str (strOrEmpty left ++ strOrEmpty right))
    | _, _ =>
      match expectNumber left "left operand of +" line with
      | .error e => .error e
      | .ok a =>
        match expectNumber right "right operand of +" line with
        | .error e => .error e
        | .ok b => .ok (.num (a + b))
  else if op = "-" then
    match expectNumber left "left operand of -" line with
    | .error e => .error e
    | .ok a =>
      match expectNumber right "right operand of -" line with
      | .error e => .error e
      | .ok b => .ok (.num (a - b))
  else if op = "*" then
    match expectNumber left "left operand of *" line with
    | .error e => .error e
    | .ok a =>
      match expectNumber right "right operand of *" line with
      | .error e => .error e
      | .ok b => .ok (.num (a * b))
  else if op = "/" then
    match expectNumber left "left operand of /" line with
    | .error e => .error e
    | .ok a =>
      match expectNumber right "right operand of /" line with
      | .error e => .error e
      | .ok b => .ok (.num (a.tdiv b))
  else if op = "%" then
    match expectNumber left "left operand of %" line with
    | .error e => .error e
    | .ok a =>
      match expectNumber right "right operand of %" line with
      | .error e => .error e
      | .ok b => .ok (.num (a.tmod b))
  else if op = "==" then .ok (.bool (jsLooseEq left right))
  else if op = "!=" then .ok (.bool (!jsLooseEq left right))
  else if op = "<" then
    match expectNumber left "left operand of <" line with
    | .error e => .error e
    | .ok a =>
      match expectNumber right "right operand of <" line with
      | .error e => .error e
      | .ok b => .ok (.bool (a < b))
  else if op = ">" then
    match expectNumber left "left operand of >" line with
    | .error e => .error e
    | .ok a =>
      match expectNumber right "right operand of >" line with
      | .error e => .error e
      | .ok b => .ok (.bool (a > b))
  else if op = "<=" then
    match expectNumber left "left operand of <=" line with
    | .error e => .error e
    | .ok a =>
      match expectNumber right "right operand of <=" line with
      | .error e => .error e
      | .ok b => .ok (.bool (a ≤ b))
  else if op = ">=" then
    match expectNumber left "left operand of >=" line with
    | .error e => .error e
    | .ok a =>
      match expectNumber right "right operand of >=" line with
      | .error e => .error e
      | .ok b => .ok (.bool (a ≥ b))
  else if op = "===" then .ok (.bool (jsStrictEq left right))
  else if op = "!==" then .ok (.bool (!jsStrictEq left right))
  else if op = "&&" then .ok (if truthy left then right else left)
  else if op = "||" then .ok (if truthy left then left else right)
  else .error (jsError ("Unknown operator: " ++ op))

/-- The operator switch of `evaluateUnaryExpression`. -/
def applyUnaryOperator (op : String) (argument : RuntimeValue)
    (line : Option Nat) : Except ErrObj RuntimeValue :=
  if op = "!" then .ok (.bool (!truthy argument))
  else if op = "-" then
    match expectNumber argument "operand of unary -" line with
    | .error err => .error err
    | .ok n => .ok (.num (-n))
  else if op = "+" then
    match expectNumber argument "operand of unary +" line with
    | .error err => .error err
    | .ok n => .ok (.num n)
  else .error (jsError ("Unknown unary operator: " ++ op))

/-- Dot member access (`word.length`) on an evaluated object: only
`length` of a string is meaningful in the value model; every other
access yields `undefined` (the model has no object values). -/
def memberDotAccess (o : RuntimeValue) (propName : String) :
    Except ErrObj RuntimeValue :=
  match o with
  | .str s => if propName = "length" then .ok (.num (s.length : Int)) else .ok .undefined
  | _ => .ok .undefined

/-- Computed member access (`word[i]`) on evaluated object and
property: the index passes `expectStringOrNumber`; a numeric index into
a string yields the character, a numeral-string index coerces,
`"length"` reads the length, anything else is `undefined`. -/
def memberComputedAccess (o p : RuntimeValue) (line : Option Nat) :
    Except ErrObj RuntimeValue :=
  match expectStringOrNumber p "member access index" line with
  | .error e => .error e
  | .ok index =>
    match o with
    | .str s =>
      match index with
      | .num i => .ok (jsStringIndex s i)
      | .str key =>
        if key = "length" then .ok (.num (s.length : Int))
        else
          match jsStringToNumber key with
          | some i => .ok (jsStringIndex s i)
          | none => .ok .undefined
      | _ => .ok .undefined
    | _ => .ok .undefined

mutual
/-- `evaluate` from `evaluator.ts`: literals, identifier reads from the
current frame, operators (both operands evaluated, then the switch),
templates and member access. -/
def evaluate : Expr → Runtime → Option Nat → Except ErrObj RuntimeValue
  | .lit v, _, _ => .ok v
  | .ident name, rt, _ => .ok (rt.getVariable name)
  | .binary op l r, rt, line =>
    match evaluate l rt line with
    | .error e => .error e
    | .ok left =>
      match evaluate r rt line with
      | .error e => .error e
      | .ok right => applyBinaryOperator op left right line
  | .unary op e, rt, line =>
    match evaluate e rt line with
    | .error err => .error err
    | .ok argument => applyUnaryOperator op argument line
  | .template parts, rt, line =>
    match evaluateTemplateParts parts rt line with
    | .ok s => .ok (.str s)
    | .error e => .error e
  | .memberDot obj propName, rt, line =>
    match evaluate obj rt line with
    | .error e => .error e
    | .ok o => memberDotAccess o propName
  | .memberComputed obj prop, rt, line =>
    match evaluate obj rt line with
    | .error e => .error e
    | .ok o =>
      match evaluate prop rt line with
      | .error e => .error e
      | .ok p => memberComputedAccess o p line

/-- `evaluateTemplateLiteral` from `evaluator.ts`: concatenate literal
parts with the rendered values of expression parts. -/
def evaluateTemplateParts : List TemplatePart → Runtime → Option Nat →
    Except ErrObj String
  | [], _, _ => .ok ""
  | .literal v :: rest, rt, line =>
    match evaluateTemplateParts rest rt line with
    | .ok s => .ok (v ++ s)
    | .error e => .error e
  | .expression e :: rest, rt, line =>
    match evaluate e rt line with
    | .error err => .error err
    | .ok v =>
      match evaluateTemplateParts rest rt line with
      | .ok s => .ok (jsString v ++ s)
      | .error err => .error err
end

/-- `evaluateBinaryExpression` from `evaluator.ts`: both operands are
evaluated before the operator is dispatched (its body is definitionally
the `binary` case of `evaluate`). -/
def evaluateBinaryExpression (op : String) (l r : Expr) (rt : Runtime)
    (line : Option Nat) : Except ErrObj RuntimeValue :=
  match evaluate l rt line with
  | .error e => .error e
  | .ok left =>
    match evaluate r rt line with
    | .error e => .error e
    | .ok right => applyBinaryOperator op left right line

/-- `evaluateUnaryExpression` from `evaluator.ts`. -/
def evaluateUnaryExpression (op : String) (e : Expr) (rt : Runtime)
    (line : Option Nat) : Except ErrObj RuntimeValue :=
  match evaluate e rt line with
  | .error err => .error err
  | .ok argument => applyUnaryOperator op argument line

/-- Compound assignment operator tag (`AssignmentStatement.operator`). -/
inductive CompoundOp where
  | add
  | sub
  | mul
  | div
deriving Repr, DecidableEq

/-- Statement variants (`packages/core/src/types.ts`). -/
inductive Statement where
  | printStatement (expression : Expr) (line : Option Nat)
  | assignmentStatement (varName : String) (operator : Option CompoundOp)
      (value : Expr) (line : Option Nat)
  | functionCallStatement (functionName : String) (externalFile : Option String)
      (arguments : List Expr) (line : Option Nat)
  | conditionalBlock (condition : Expr) (body : List Statement) (line : Option Nat)
  | breakStatement (line : Option Nat)
  | inputStatement (varName : String) (line : Option Nat)
  | variableDeclaration (varName : String) (value : Expr) (line : Option Nat)
deriving Repr

/-- Function declaration: name, ordered parameters, statement body. -/
structure FunctionDeclaration where
  name : String
  parameters : List String
  body : List Statement
deriving Repr

/-- Program: mapping from function name to declaration (the `_baseDir`
tag is folded into the resolver parameter, see the header note). -/
structure Program where
  functions : List (String × FunctionDeclaration)
deriving Repr

/-- `program.functions[name]` lookup. -/
def Program.lookupFunction (p : Program) (name : String) : Option FunctionDeclaration :=
  (p.functions.find? (fun entry => entry.1 = name)).map (·.2)

/-- A pending tail call (`TailCallResult` without the shared runtime,
which is threaded separately): target program, target function, evaluated
arguments. -/
structure TailCall where
  program : Program
  func : FunctionDeclaration
  args : List RuntimeValue
deriving Repr

/-- Execution failure: a thrown error, or fuel exhaustion (the modelled
counterpart of a source run that has not yet terminated). -/
inductive RunError where
  | err (e : ErrObj)
  | outOfFuel
deriving Repr

/-- The resolver capability: stands for `loadExternalProgram` together
with the file system / URL fetch / module cache it consults
(external collaborators per spec §6). -/
abbrev Resolver := String → Except ErrObj Program

/-- Argument binding of `executeFunction`: `argBindings[parameters[i]] =
args[i]`, a missing argument reading as JS `undefined`. -/
def bindParams : List (String × RuntimeValue) → List String → List RuntimeValue →
    List (String × RuntimeValue)
  | acc, [], _ => acc
  | acc, p :: ps, [] => bindParams (listSet acc p .undefined) ps []
  | acc, p :: ps, a :: rest => bindParams (listSet acc p a) ps rest

/-- `Runtime.pushFrame`.  Modelled from the spec: the declared-variable
set of a fresh frame holds the parameter names (parameters are declared
by the ordered-list construct, spec §4.1/§4.2; the current runtime file
is absent from the sources). -/
def Runtime.pushFrame (rt : Runtime) (functionName : String)
    (args : List (String × RuntimeValue)) (declared : List String) : Runtime :=
  { rt with callStack :=
    { functionName := functionName, vars := args, declaredVariables := declared } ::
      rt.callStack }

/-- `Runtime.popFrame`. -/
def Runtime.popFrame (rt : Runtime) : Runtime :=
  { rt with callStack := rt.callStack.tail }

/-- `getDefaultValue` from `interpreter/index.ts`: the seed used by a
compound assignment when the variable had no prior value. -/
def getDefaultValue : RuntimeValue → RuntimeValue
  | .str _ => .str ""
  | .num _ => .num 0
  | _ => .undefined

/-- The compound-assignment arithmetic of `executeAssignment`: `+`
concatenates when either side is a string, otherwise both sides must be
numbers; `-`, `*`, `/` always coerce both sides, naming the variable for
the left side and the assignment value for the right. -/
def compoundResult (op : CompoundOp) (varCtx : String)
    (currentValue newValue : RuntimeValue) (line : Option Nat) :
    Except ErrObj RuntimeValue :=
  match op with
  | .add =>
    match currentValue, newValue with
    | .str _, _ => .ok (.str (strOrEmpty currentValue ++ strOrEmpty newValue))
    | _, .str _ => .ok (.str (strOrEmpty currentValue ++ strOrEmpty newValue))
    | _, _ =>
      match expectNumber currentValue varCtx line with
      | .error e => .error e
      | .ok a =>
        match expectNumber newValue "assignment value" line with
        | .error e => .error e
        | .ok b => .ok (.num (a + b))
  | .sub =>
    match expectNumber currentValue varCtx line with
    | .error e => .error e
    | .ok a =>
      match expectNumber newValue "assignment value" line with
      | .error e => .error e
      | .ok b => .ok (.num (a - b))
  | .mul =>
    match expectNumber currentValue varCtx line with
    | .error e => .error e
    | .ok a =>
      match expectNumber newValue "assignment value" line with
      | .error e => .error e
      | .ok b => .ok (.num (a * b))
  | .div =>
    match expectNumber currentValue varCtx line with
    | .error e => .error e
    | .ok a =>
      match expectNumber newValue "assignment value" line with
      | .error e => .error e
      | .ok b => .ok (.num (a.tdiv b))

/-- `executeAssignment` from `interpreter/index.ts`: evaluate the value;
a compound operator reads the current value (`?? getDefaultValue` of the
new value), applies the arithmetic/concatenation rule, and stores the
result; simple assignment stores the evaluated value as-is.  Storing
goes through `Runtime.setVariable` and hence through the
declared-variable check. -/
def executeAssignment (varName : String) (operator : Option CompoundOp)
    (value : Expr) (line : Option Nat) (rt : Runtime) : Except ErrObj Runtime :=
  match evaluate value rt line with
  | .error e => .error e
  | .ok newValue =>
    match operator with
    | none => rt.setVariable varName newValue
    | some op =>
      match compoundResult op ("variable \x27" ++ varName ++ "\x27")
          (if nullish (rt.getVariable varName) then getDefaultValue newValue
            else rt.getVariable varName)
          newValue line with
      | .error e => .error e
      | .ok result => rt.setVariable varName result

/-- `executePrint`: evaluate and append to the output. -/
def executePrint (expression : Expr) (line : Option Nat) (rt : Runtime) :
    Except ErrObj Runtime :=
  match evaluate expression rt line with
  | .error e => .error e
  | .ok v => .ok (rt.print v)

/-- `executeInput` (sync mode): read the next buffered value and store
it in the named variable. -/
def executeInput (varName : String) (rt : Runtime) : Except ErrObj Runtime :=
  let (value, rt') := rt.readInput
  rt'.setVariable varName value

/-- Call-target resolution of `executeFunctionCall`: an external
reference goes through the resolver, an internal one through the current
program's function table; a missing function is a fatal error naming the
reference. -/
def resolveCallTarget (resolve : Resolver) (program : Program)
    (functionName : String) (externalFile : Option String) :
    Except ErrObj (Program × FunctionDeclaration) :=
  match externalFile with
  | some file =>
    match resolve file with
    | .error e => .error e
    | .ok externalProgram =>
      match externalProgram.lookupFunction functionName with
      | some f => .ok (externalProgram, f)
      | none => .error (jsError ("Function \x27" ++ functionName ++
          "\x27 not found in \x27" ++ file ++ "\x27"))
  | none =>
    match program.lookupFunction functionName with
    | some f => .ok (program, f)
    | none => .error (jsError ("Function \x27" ++ functionName ++ "\x27 not found"))

/-- Left-to-right evaluation of the argument expressions
(`statement.arguments.map(arg => evaluate(...))`). -/
def evalArgs (arguments : List Expr) (rt : Runtime) (line : Option Nat) :
    Except ErrObj (List RuntimeValue) :=
  match arguments with
  | [] => .ok []
  | e :: rest =>
    match evaluate e rt line with
    | .error err => .error err
    | .ok v =>
      match evalArgs rest rt line with
      | .error err => .error err
      | .ok vs => .ok (v :: vs)

mutual
/-- `executeFunction` from `interpreter/index.ts`: push one frame, run
the body, pop the frame, hand any pending tail call back to the caller. -/
def executeFunction (resolve : Resolver) (fuel : Nat) (program : Program)
    (func : FunctionDeclaration) (args : List RuntimeValue) (rt : Runtime) :
    Except RunError (Option TailCall × Runtime) :=
  match fuel with
  | 0 => .error .outOfFuel
  | fuel + 1 =>
    let rt1 := rt.pushFrame func.name (bindParams [] func.parameters args)
      func.parameters
    match executeBlock resolve fuel program func.body rt1 with
    | .error e => .error e
    | .ok (res, rt2) => .ok (res, rt2.popFrame)

/-- `executeBlock`: iterate the statements in order; stop as soon as the
shared break flag is seen set; return a pending tail call immediately;
the last statement of the sequence is flagged as such. -/
def executeBlock (resolve : Resolver) (fuel : Nat) (program : Program)
    (statements : List Statement) (rt : Runtime) :
    Except RunError (Option TailCall × Runtime) :=
  match fuel with
  | 0 => .error .outOfFuel
  | fuel + 1 =>
    match statements with
    | [] => .ok (none, rt)
    | stmt :: rest =>
      if rt.breakFlag then .ok (none, rt)
      else
        match executeStatement resolve fuel program stmt rt rest.isEmpty with
        | .error e => .error e
        | .ok (some tc, rt') => .ok (some tc, rt')
        | .ok (none, rt') => executeBlock resolve fuel program rest rt'

/-- `executeStatement`: dispatch on the statement variant.  The
`variableDeclaration` case is modelled from the spec (the current
interpreter file is absent from the sources): declaring marks the name
declared and stores the initial value. -/
def executeStatement (resolve : Resolver) (fuel : Nat) (program : Program)
    (statement : Statement) (rt : Runtime) (isLast : Bool) :
    Except RunError (Option TailCall × Runtime) :=
  match fuel with
  | 0 => .error .outOfFuel
  | fuel + 1 =>
    match statement with
    | .printStatement e line =>
      match executePrint e line rt with
      | .error err => .error (.err err)
      | .ok rt' => .ok (none, rt')
    | .assignmentStatement v op value line =>
      match executeAssignment v op value line rt with
      | .error err => .error (.err err)
      | .ok rt' => .ok (none, rt')
    | .functionCallStatement name ext args line =>
      executeFunctionCall resolve fuel program name ext args line rt isLast
    | .conditionalBlock cond body line =>
      executeConditional resolve fuel program cond body line rt
    | .breakStatement _ => .ok (none, rt.setBreak)
    | .inputStatement v _ =>
      match executeInput v rt with
      | .error err => .error (.err err)
      | .ok rt' => .ok (none, rt')
    | .variableDeclaration v value line =>
      match evaluate value rt line with
      | .error err => .error (.err err)
      | .ok value' => .ok (none, rt.declareVariable v value')

/-- `executeFunctionCall`: resolve the target, evaluate the arguments;
when the statement is the last of its sequence return a pending tail
call for the trampoline, otherwise run the call eagerly to completion
through a nested trampoline. -/
def executeFunctionCall (resolve : Resolver) (fuel : Nat) (program : Program)
    (functionName : String) (externalFile : Option String)
    (arguments : List Expr) (line : Option Nat) (rt : Runtime) (isLast : Bool) :
    Except RunError (Option TailCall × Runtime) :=
  match fuel with
  | 0 => .error .outOfFuel
  | fuel + 1 =>
    match resolveCallTarget resolve program functionName externalFile with
    | .error e => .error (.err e)
    | .ok (targetProgram, func) =>
      match evalArgs arguments rt line with
      | .error e => .error (.err e)
      | .ok args =>
        if isLast then
          .ok (some { program := targetProgram, func := func, args := args }, rt)
        else
          match runTrampoline resolve fuel
              { program := targetProgram, func := func, args := args } rt with
          | .error e => .error e
          | .ok rt' => .ok (none, rt')

/-- `executeConditional`: evaluate the condition; when truthy run the
body (itself subject to the tail-call protocol), otherwise do nothing. -/
def executeConditional (resolve : Resolver) (fuel : Nat) (program : Program)
    (condition : Expr) (body : List Statement) (line : Option Nat) (rt : Runtime) :
    Except RunError (Option TailCall × Runtime) :=
  match fuel with
  | 0 => .error .outOfFuel
  | fuel + 1 =>
    match evaluate condition rt line with
    | .error e => .error (.err e)
    | .ok cond =>
      if truthy cond then executeBlock resolve fuel program body rt
      else .ok (none, rt)

/-- The trampoline loop shared by `interpret` and the eager branch of
`executeFunctionCall`: invoke the pending call, and keep invoking as
long as the result is again a pending call. -/
def runTrampoline (resolve : Resolver) (fuel : Nat) (tc : TailCall) (rt : Runtime) :
    Except RunError Runtime :=
  match fuel with
  | 0 => .error .outOfFuel
  | fuel + 1 =>
    match executeFunction resolve fuel tc.program tc.func tc.args rt with
    | .error e => .error e
    | .ok (some tc', rt') => runTrampoline resolve fuel tc' rt'
    | .ok (none, rt') => .ok rt'
end

/-- `interpret` from `interpreter/index.ts` (sync mode): fresh runtime,
entry-function lookup, then the top-level trampoline loop; the result is
the accumulated output sequence. -/
def interpret (resolve : Resolver) (fuel : Nat) (program : Program)
    (entryPoint : String) (args : List RuntimeValue)
    (inputs : List RuntimeValue) : Except RunError (List RuntimeValue) :=
  let rt : Runtime :=
    { callStack := [], output := [], breakFlag := false,
      inputBuffer := inputs, inputIndex := 0 }
  match program.lookupFunction entryPoint with
  | none => .error (.err (jsError ("Entry function \x27" ++ entryPoint ++
      "\x27 not found")))
  | some mainFunc =>
    match runTrampoline resolve fuel
        { program := program, func := mainFunc, args := args } rt with
    | .error e => .error e
    | .ok rt' => .ok rt'.output

/-- The opening brace character (written via its code point, see the
template-literal scanner below). -/
def lbrace : Char := Char.ofNat 123

/-- The closing brace character. -/
def rbrace : Char := Char.ofNat 125

/-- External document-tree node (`mdast`), restricted to the node kinds
the transformer dispatches on (spec §6). -/
inductive MdastNode where
  | heading (depth : Nat) (children : List MdastNode) (line : Option Nat)
  | list (ordered : Bool) (children : List MdastNode) (line : Option Nat)
  | listItem (children : List MdastNode) (line : Option Nat)
  | paragraph (children : List MdastNode) (line : Option Nat)
  | link (url : String) (children : List MdastNode) (line : Option Nat)
  | emphasis (children : List MdastNode)
  | strong (children : List MdastNode)
  | blockquote (children : List MdastNode) (line : Option Nat)
  | thematicBreak (line : Option Nat)
  | code (value : String)
  | inlineCode (value : String)
  | text (value : String)
deriving Repr

mutual
/-- `extractText` from the transformer: concatenate the node's value
with the recursively extracted text of its children and trim; inline
code contributes nothing. -/
def extractText : MdastNode → String
  | .heading _ children _ => jsTrim (extractTextList children)
  | .list _ children _ => jsTrim (extractTextList children)
  | .listItem children _ => jsTrim (extractTextList children)
  | .paragraph children _ => jsTrim (extractTextList children)
  | .link _ children _ => jsTrim (extractTextList children)
  | .emphasis children => jsTrim (extractTextList children)
  | .strong children => jsTrim (extractTextList children)
  | .blockquote children _ => jsTrim (extractTextList children)
  | .thematicBreak _ => ""
  | .code v => jsTrim v
  | .inlineCode _ => ""
  | .text v => jsTrim v

/-- Concatenation of the extracted text of a child list. -/
def extractTextList : List MdastNode → String
  | [] => ""
  | n :: rest => extractText n ++ extractTextList rest
end

/-- `extractEmphasisText`: the text of the first emphasis child, if
any. -/
def extractEmphasisText (children : List MdastNode) : Option String :=
  match children with
  | [] => none
  | .emphasis grandchildren :: _ => some (extractText (.emphasis grandchildren))
  | _ :: rest => extractEmphasisText rest

/-- The balanced-brace scan of `parseTemplateLiteral`: starting just
after an opening brace with the given open count, consume characters,
raising the count on `\x7b` and lowering it on `\x7d`, until the count
reaches zero or the input ends; returns the consumed characters and the
remainder. -/
def scanBalanced : List Char → Nat → List Char × List Char
  | cs, 0 => ([], cs)
  | [], _ + 1 => ([], [])
  | c :: rest, count + 1 =>
    let newCount :=
      if c = lbrace then count + 2 else if c = rbrace then count else count + 1
    let (scanned, rest') := scanBalanced rest newCount
    (c :: scanned, rest')

/-- The remainder returned by `scanBalanced` never grows. -/
theorem scanBalanced_rest_length (cs : List Char) :
    ∀ count, (scanBalanced cs count).2.length ≤ cs.length := by
  induction cs with
  | nil => intro count; cases count <;> simp [scanBalanced]
  | cons c rest ih =>
    intro count
    cases count with
    | zero => simp [scanBalanced]
    | succ n =>
      simp only [scanBalanced]
      exact le_trans (ih _) (Nat.le_succ _)

/-- `parseTemplateLiteral`'s main loop over the characters of a text
run: accumulate literal characters; on an opening brace, flush the
literal, scan to the balanced closing brace (the matching brace itself
is dropped, as is the final character when the braces are unbalanced),
parse the span as an expression, and continue. -/
def parseTemplateChars (parseExpr : String → Expr) :
    List Char → String → List TemplatePart
  | [], current => if current = "" then [] else [.literal current]
  | c :: rest, current =>
    if c = lbrace then
      let pre : List TemplatePart :=
        if current = "" then [] else [.literal current]
      pre ++ .expression (parseExpr (String.mk (scanBalanced rest 1).1.dropLast)) ::
        parseTemplateChars parseExpr (scanBalanced rest 1).2 ""
    else
      parseTemplateChars parseExpr rest (current.push c)
termination_by cs _ => cs.length
decreasing_by
  · simpa using Nat.lt_succ_of_le (scanBalanced_rest_length rest 1)
  · simp

/-- `parseTemplateLiteral`: split a text run on balanced brace spans
into alternating literal/expression parts. -/
def parseTemplateLiteral (parseExpr : String → Expr) (text : String) :
    List TemplatePart :=
  parseTemplateChars parseExpr text.toList ""

/-- The `^\x7b([^\x7d]+)\x7d$` match of the print dispatch: the whole
text is one brace-wrapped span whose body is nonempty and free of
closing braces. -/
def printBraceMatch (s : String) : Option String :=
  match s.toList with
  | c :: rest =>
    if c = lbrace && rest.getLast? = some rbrace &&
        !rest.dropLast.isEmpty && rest.dropLast.all (fun x => !(x = rbrace)) then
      some (String.mk rest.dropLast)
    else none
  | [] => none

/-- `\w` of the transformer's regexes: ASCII letters, digits and
underscore. -/
def isWordChar (c : Char) : Bool := c.isAlphanum || c = '_'

/-- A character `.` of the regexes does not match (line terminators). -/
def isLineTerminator (c : Char) : Bool := c = '\n' || c = '\r'

/-- The assignment-paragraph regex
`^(\w+)\s*(\+|\-|\*|\/)?=\s*(.+)$`: a word, optional spacing, an
optional compound operator immediately followed by `=`, spacing, and a
nonempty single-line remainder. -/
def matchAssignment (s : String) : Option (String × Option CompoundOp × String) :=
  let cs := s.toList
  let w := cs.takeWhile isWordChar
  if w.isEmpty then none
  else
    let afterWord := (cs.dropWhile isWordChar).dropWhile Char.isWhitespace
    let (op, afterOp) :=
      match afterWord with
      | '+' :: rest => (some CompoundOp.add, rest)
      | '-' :: rest => (some CompoundOp.sub, rest)
      | '*' :: rest => (some CompoundOp.mul, rest)
      | '/' :: rest => (some CompoundOp.div, rest)
      | rest => (none, rest)
    match afterOp with
    | '=' :: afterEq =>
      let valueChars := afterEq.dropWhile Char.isWhitespace
      if valueChars.isEmpty || valueChars.any isLineTerminator then none
      else some (String.mk w, op, String.mk valueChars)
    | _ => none

/-- The declaration-list regex `^(\w+)\s*=\s*(.+)$` (no compound
operator). -/
def matchDeclaration (s : String) : Option (String × String) :=
  match matchAssignment s with
  | some (name, none, value) => some (name, value)
  | _ => none

/-- The argument-list split of a call paragraph: the link text split on
commas, each segment trimmed and parsed; empty text means no
arguments. -/
def parseCallArgs (parseExpr : String → Expr) (argsText : String) : List Expr :=
  if argsText = "" then []
  else (argsText.splitOn ",").map (fun a => parseExpr (jsTrim a))

/-- The call-target split of a link url: `#name` is an internal call, a
url containing `#` splits at the first `#` into external file and
function name, and a bare target is an internal call for backwards
compatibility. -/
def parseCallTarget (url : String) : String × Option String :=
  if url.startsWith "#" then (url.drop 1, none)
  else
    match url.toList.findIdx? (fun c => c = '#') with
    | some i => ((url.toList.drop (i + 1)).asString, some (url.toList.take i).asString)
    | none => (url, none)

/-- `parseParagraph` from the transformer: a sole strong child is a
print statement (brace-wrapped expression, template, or literal text); a
sole link child is a function call; otherwise the text is tried as an
assignment; anything else yields no statement. -/
def parseParagraph (parseExpr : String → Expr) (children : List MdastNode) :
    Option Statement :=
  match children with
  | [.strong grandchildren] =>
    let strongText := extractText (.strong grandchildren)
    match printBraceMatch strongText with
    | some exprText => some (.printStatement (parseExpr exprText) none)
    | none =>
      if strongText.toList.contains lbrace && strongText.toList.contains rbrace then
        some (.printStatement (.template (parseTemplateLiteral parseExpr strongText))
          none)
      else
        some (.printStatement (.lit (.str strongText)) none)
  | [.link url grandchildren _] =>
    let argsText := extractText (.link url grandchildren none)
    let args := parseCallArgs parseExpr argsText
    let (functionName, externalFile) := parseCallTarget url
    some (.functionCallStatement functionName externalFile args none)
  | _ =>
    match matchAssignment (extractText (.paragraph children none)) with
    | some (name, op, valueStr) =>
      some (.assignmentStatement name op (parseExpr valueStr) none)
    | none => none

/-- Attach a source line to the single statement a paragraph yields. -/
def Statement.withLine : Statement → Option Nat → Statement
  | .printStatement e _, line => .printStatement e line
  | .assignmentStatement v op value _, line => .assignmentStatement v op value line
  | .functionCallStatement n ext args _, line => .functionCallStatement n ext args line
  | .conditionalBlock c b _, line => .conditionalBlock c b line
  | .breakStatement _, line => .breakStatement line
  | .inputStatement v _, line => .inputStatement v line
  | .variableDeclaration v value _, line => .variableDeclaration v value line

/-- One suspended outer level of the transformer's block stack: the
statements already in that block, followed by the pending conditional
(condition and line) whose body is still being built above it.  This is
the functional rendering of the source's aliased statement arrays: the
popped body is written into the pending conditional at pop time. -/
structure TParent where
  stmts : List Statement
  cond : Expr
  line : Option Nat

/-- The transformer's block stack: the innermost open block (`top`,
where appends go) plus the suspended outer levels, innermost parent
first.  Nonemptiness of the source's `blockStack` while a function is
open is structural here. -/
structure TCtx where
  top : List Statement
  parents : List TParent

/-- `blockStack.length`. -/
def TCtx.stackLength (ctx : TCtx) : Nat := ctx.parents.length + 1

/-- `blockStack.pop()`: seal the innermost block as the body of its
pending conditional and return to the parent level. -/
def TCtx.popOne : TCtx → TCtx
  | ⟨top, []⟩ => ⟨top, []⟩
  | ⟨top, p :: rest⟩ =>
    ⟨p.stmts ++ [.conditionalBlock p.cond top p.line], rest⟩

/-- The loop body of `while (blockStack.length >= depth)
blockStack.pop()`, recursing over the parent levels. -/
def popToDepthGo (depth : Nat) : List Statement → List TParent → TCtx
  | top, [] => ⟨top, []⟩
  | top, p :: rest =>
    if rest.length + 2 ≥ depth then
      popToDepthGo depth (p.stmts ++ [.conditionalBlock p.cond top p.line]) rest
    else ⟨top, p :: rest⟩

/-- `while (blockStack.length >= depth) blockStack.pop()` of the
heading branch.  The branch guards `depth ≥ 2`, so a parent level is
present whenever the loop condition holds. -/
def popToDepth (ctx : TCtx) (depth : Nat) : TCtx :=
  popToDepthGo depth ctx.top ctx.parents

/-- Fold every remaining level into the outermost block. -/
def collapseGo : List Statement → List TParent → List Statement
  | top, [] => top
  | top, p :: rest =>
    collapseGo (p.stmts ++ [.conditionalBlock p.cond top p.line]) rest

/-- Collapse the whole stack into the function body (in the source this
is implicit: the arrays are aliased, so the body is complete once the
walk ends). -/
def TCtx.collapse (ctx : TCtx) : List Statement :=
  collapseGo ctx.top ctx.parents

/-- The function currently being built: name, parameters so far, block
stack. -/
structure TFunc where
  name : String
  parameters : List String
  ctx : TCtx

/-- Transformer state for the node-by-node walk: the registered
functions and the current function, if any. -/
structure TState where
  functions : List (String × FunctionDeclaration)
  current : Option TFunc

/-- `program.functions[name] = decl` (overwrite; later same-named
headings win). -/
def insertFn (fns : List (String × FunctionDeclaration)) (name : String)
    (decl : FunctionDeclaration) : List (String × FunctionDeclaration) :=
  match fns with
  | [] => [(name, decl)]
  | (k, v) :: rest =>
    if k = name then (k, decl) :: rest else (k, v) :: insertFn rest name decl

/-- Register the current function (if any) with its completed body.  In
the source registration happens at creation and the body fills in by
aliasing; here it happens when the function can no longer change. -/
def TState.flush (st : TState) : List (String × FunctionDeclaration) :=
  match st.current with
  | none => st.functions
  | some f =>
    insertFn st.functions f.name
      { name := f.name, parameters := f.parameters, body := f.ctx.collapse }

/-- The variable declarations produced by an unordered list: each item
is `name = expr` (declare with initial value) or a bare name (declare
with the `undefined` literal). -/
def declStatements (parseExpr : String → Expr) (items : List MdastNode) :
    List Statement :=
  items.map (fun item =>
    let itemText := extractText item
    let line :=
      match item with
      | .listItem _ l => l
      | _ => none
    match matchDeclaration itemText with
    | some (name, valueStr) =>
      .variableDeclaration name (parseExpr valueStr) line
    | none => .variableDeclaration itemText (.lit .undefined) line)

/-- One iteration of `mdastToProgram`'s walk (the body of its `for`
loop), dispatching on the node kind exactly as the source's if/else-if
chain does. -/
def transformNode (parseExpr : String → Expr) (st : TState) (node : MdastNode) :
    TState :=
  match node with
  | .heading depth children line =>
    if depth = 1 then
      { functions := st.flush,
        current := some
          { name := jsTrim (extractTextList children), parameters := [],
            ctx := { top := [], parents := [] } } }
    else
      match st.current with
      | none => st
      | some f =>
        if 2 ≤ depth ∧ depth ≤ 6 then
          let ctx2 := popToDepth f.ctx depth
          if ctx2.stackLength = depth - 1 then
            match extractEmphasisText children with
            | some conditionText =>
              if conditionText = "" then { st with current := some { f with ctx := ctx2 } }
              else
                { st with current := some { f with ctx :=
                  { top := [],
                    parents :=
                      { stmts := ctx2.top, cond := parseExpr conditionText,
                        line := line } :: ctx2.parents } } }
            | none => { st with current := some { f with ctx := ctx2 } }
          else { st with current := some { f with ctx := ctx2 } }
        else st
  | .list ordered items _ =>
    match st.current with
    | none => st
    | some f =>
      if ordered then
        if f.ctx.parents.isEmpty then
          { st with current := some { f with
            parameters := f.parameters ++ items.map extractText } }
        else st
      else
        { st with current := some { f with ctx :=
          { f.ctx with top := f.ctx.top ++ declStatements parseExpr items } } }
  | .paragraph children line =>
    match st.current with
    | none => st
    | some f =>
      match parseParagraph parseExpr children with
      | some stmt =>
        { st with current := some { f with ctx :=
          { f.ctx with top := f.ctx.top ++ [stmt.withLine line] } } }
      | none => st
  | .thematicBreak line =>
    match st.current with
    | none => st
    | some f =>
      let ctx1 : TCtx := { f.ctx with top := f.ctx.top ++ [.breakStatement line] }
      { st with current := some { f with ctx :=
        if ctx1.parents.isEmpty then ctx1 else ctx1.popOne } }
  | .blockquote children line =>
    match st.current with
    | none => st
    | some f =>
      let varName := jsTrim (extractText (.blockquote children none))
      if varName = "" then st
      else
        { st with current := some { f with ctx :=
          { f.ctx with top := f.ctx.top ++ [.inputStatement varName line] } } }
  | _ => st

/-- `mdastToProgram`: walk the document's top-level nodes and register
every function. -/
def mdastToProgram (parseExpr : String → Expr) (nodes : List MdastNode) : Program :=
  { functions := (nodes.foldl (transformNode parseExpr)
      { functions := [], current := none }).flush }

/-- `setVariable` keeps the frames below the top and the break flag. -/
theorem setVariable_preserves {rt rt' : Runtime} {name : String} {v : RuntimeValue}
    (h : rt.setVariable name v = .ok rt') :
    rt'.callStack.tail = rt.callStack.tail ∧ rt'.breakFlag = rt.breakFlag := by
  unfold Runtime.setVariable at h
  cases hcs : rt.callStack with
  | nil =>
    rw [hcs] at h
    cases h
    exact ⟨by rw [hcs], rfl⟩
  | cons frame rest =>
    rw [hcs] at h
    by_cases hd : frame.declaredVariables.contains name
    · simp only [hd, if_true] at h
      cases h
      exact ⟨rfl, rfl⟩
    · simp only [hd, if_false] at h
      cases h

/-- `declareVariable` keeps the frames below the top and the break flag. -/
theorem declareVariable_preserves (rt : Runtime) (name : String) (v : RuntimeValue) :
    (rt.declareVariable name v).callStack.tail = rt.callStack.tail ∧
      (rt.declareVariable name v).breakFlag = rt.breakFlag := by
  unfold Runtime.declareVariable
  cases hcs : rt.callStack with
  | nil => exact ⟨by rw [hcs], rfl⟩
  | cons frame rest => exact ⟨rfl, rfl⟩

/-- `executeAssignment` keeps the frames below the top and the break
flag. -/
theorem executeAssignment_preserves {v : String} {op : Option CompoundOp}
    {value : Expr} {line : Option Nat} {rt rt' : Runtime}
    (h : executeAssignment v op value line rt = .ok rt') :
    rt'.callStack.tail = rt.callStack.tail ∧ rt'.breakFlag = rt.breakFlag := by
  cases hev : evaluate value rt line with
  | error e =>
    simp [executeAssignment, hev] at h
  | ok newValue =>
    simp only [executeAssignment, hev] at h
    cases op with
    | none => exact setVariable_preserves h
    | some cop =>
      dsimp only at h
      cases hcr : compoundResult cop ("variable \x27" ++ v ++ "\x27")
          (if nullish (rt.getVariable v) then getDefaultValue newValue
            else rt.getVariable v) newValue line with
      | error e => rw [hcr] at h; cases h
      | ok result => rw [hcr] at h; exact setVariable_preserves h

/-- `executePrint` keeps the whole call stack and the break flag. -/
theorem executePrint_preserves {e : Expr} {line : Option Nat} {rt rt' : Runtime}
    (h : executePrint e line rt = .ok rt') :
    rt'.callStack = rt.callStack ∧ rt'.breakFlag = rt.breakFlag := by
  unfold executePrint at h
  split at h
  · cases h
  · cases h
    exact ⟨rfl, rfl⟩

/-- `readInput` advances only the input cursor. -/
theorem readInput_preserves (rt : Runtime) :
    (rt.readInput).2.callStack = rt.callStack ∧
      (rt.readInput).2.breakFlag = rt.breakFlag := by
  unfold Runtime.readInput
  split <;> exact ⟨rfl, rfl⟩

/-- `executeInput` keeps the frames below the top and the break flag. -/
theorem executeInput_preserves {v : String} {rt rt' : Runtime}
    (h : executeInput v rt = .ok rt') :
    rt'.callStack.tail = rt.callStack.tail ∧ rt'.breakFlag = rt.breakFlag := by
  unfold executeInput at h
  obtain ⟨hc, hb⟩ := readInput_preserves rt
  rcases hri : rt.readInput with ⟨value, rt2⟩
  rw [hri] at h hc hb
  obtain ⟨h1, h2⟩ := setVariable_preserves h
  rw [hc] at h1
  rw [hb] at h2
  exact ⟨h1, h2⟩

/-- Master execution invariant, by induction on fuel.  On success every
execution step keeps the frames below its top frame untouched and never
clears a set break flag; `executeFunction`, `executeFunctionCall` and
`runTrampoline` restore the call stack exactly (one push balanced by one
pop per invocation, any number of trampoline bounces included). -/
theorem execInvariant (resolve : Resolver) : ∀ fuel : Nat,
    (∀ program func args rt res rt',
      executeFunction resolve fuel program func args rt = .ok (res, rt') →
        rt'.callStack = rt.callStack ∧
          (rt.breakFlag = true → rt'.breakFlag = true))
  ∧ (∀ program stmts rt res rt',
      executeBlock resolve fuel program stmts rt = .ok (res, rt') →
        rt'.callStack.tail = rt.callStack.tail ∧
          (rt.breakFlag = true → rt'.breakFlag = true))
  ∧ (∀ program stmt rt isLast res rt',
      executeStatement resolve fuel program stmt rt isLast = .ok (res, rt') →
        rt'.callStack.tail = rt.callStack.tail ∧
          (rt.breakFlag = true → rt'.breakFlag = true))
  ∧ (∀ program name ext argEs line rt isLast res rt',
      executeFunctionCall resolve fuel program name ext argEs line rt isLast =
          .ok (res, rt') →
        rt'.callStack = rt.callStack ∧
          (rt.breakFlag = true → rt'.breakFlag = true))
  ∧ (∀ program cond body line rt res rt',
      executeConditional resolve fuel program cond body line rt = .ok (res, rt') →
        rt'.callStack.tail = rt.callStack.tail ∧
          (rt.breakFlag = true → rt'.breakFlag = true))
  ∧ (∀ tc rt rt',
      runTrampoline resolve fuel tc rt = .ok rt' →
        rt'.callStack = rt.callStack ∧
          (rt.breakFlag = true → rt'.breakFlag = true)) := by
  intro fuel
  induction fuel with
  | zero =>
    refine ⟨?_, ?_, ?_, ?_, ?_, ?_⟩
    · intro program func args rt res rt' h
      simp [executeFunction] at h
    · intro program stmts rt res rt' h
      simp [executeBlock] at h
    · intro program stmt rt isLast res rt' h
      simp [executeStatement] at h
    · intro program name ext argEs line rt isLast res rt' h
      simp [executeFunctionCall] at h
    · intro program cond body line rt res rt' h
      simp [executeConditional] at h
    · intro tc rt rt' h
      simp [runTrampoline] at h
  | succ n ih =>
    obtain ⟨ihFun, ihBlock, ihStmt, ihCall, ihCond, ihTramp⟩ := ih
    refine ⟨?_, ?_, ?_, ?_, ?_, ?_⟩
    · -- executeFunction
      intro program func args rt res rt' h
      simp only [executeFunction] at h
      cases hb : executeBlock resolve n program func.body
          (rt.pushFrame func.name (bindParams [] func.parameters args)
            func.parameters) with
      | error e => rw [hb] at h; cases h
      | ok pr =>
        rw [hb] at h
        obtain ⟨r2, rt2⟩ := pr
        cases h
        obtain ⟨h1, h2⟩ := ihBlock _ _ _ _ _ hb
        exact ⟨h1, h2⟩
    · -- executeBlock
      intro program stmts rt res rt' h
      cases stmts with
      | nil =>
        simp only [executeBlock] at h
        cases h
        exact ⟨rfl, fun hb => hb⟩
      | cons stmt rest =>
        simp only [executeBlock] at h
        rcases Bool.eq_false_or_eq_true rt.breakFlag with hbf | hbf
        · rw [hbf] at h
          simp only [if_pos] at h
          cases h
          exact ⟨rfl, fun hb => hb⟩
        · rw [hbf] at h
          rw [if_neg (by simp)] at h
          cases hres : executeStatement resolve n program stmt rt rest.isEmpty with
          | error e => rw [hres] at h; cases h
          | ok pr =>
            rw [hres] at h
            obtain ⟨r1, rt1⟩ := pr
            obtain ⟨s1, s2⟩ := ihStmt _ _ _ _ _ _ hres
            cases r1 with
            | some tc =>
              cases h
              exact ⟨s1, s2⟩
            | none =>
              obtain ⟨b1, b2⟩ := ihBlock _ _ _ _ _ h
              exact ⟨b1.trans s1, fun hb => b2 (s2 hb)⟩
    · -- executeStatement
      intro program stmt rt isLast res rt' h
      cases stmt with
      | printStatement e line =>
        simp only [executeStatement] at h
        cases hp : executePrint e line rt with
        | error err => rw [hp] at h; cases h
        | ok rt1 =>
          rw [hp] at h
          cases h
          obtain ⟨p1, p2⟩ := executePrint_preserves hp
          exact ⟨by rw [p1], fun hb => by rw [p2]; exact hb⟩
      | assignmentStatement v op value line =>
        simp only [executeStatement] at h
        cases ha : executeAssignment v op value line rt with
        | error err => rw [ha] at h; cases h
        | ok rt1 =>
          rw [ha] at h
          cases h
          obtain ⟨p1, p2⟩ := executeAssignment_preserves ha
          exact ⟨p1, fun hb => by rw [p2]; exact hb⟩
      | functionCallStatement name ext args line =>
        simp only [executeStatement] at h
        obtain ⟨c1, c2⟩ := ihCall _ _ _ _ _ _ _ _ _ h
        exact ⟨by rw [c1], c2⟩
      | conditionalBlock cond body line =>
        simp only [executeStatement] at h
        exact ihCond _ _ _ _ _ _ _ h
      | breakStatement line =>
        simp only [executeStatement] at h
        cases h
        exact ⟨rfl, fun _ => rfl⟩
      | inputStatement v line =>
        simp only [executeStatement] at h
        cases hi : executeInput v rt with
        | error err => rw [hi] at h; cases h
        | ok rt1 =>
          rw [hi] at h
          cases h
          obtain ⟨p1, p2⟩ := executeInput_preserves hi
          exact ⟨p1, fun hb => by rw [p2]; exact hb⟩
      | variableDeclaration v value line =>
        simp only [executeStatement] at h
        cases hv : evaluate value rt line with
        | error err => rw [hv] at h; cases h
        | ok value1 =>
          rw [hv] at h
          cases h
          obtain ⟨p1, p2⟩ := declareVariable_preserves rt v value1
          exact ⟨p1, fun hb => by rw [p2]; exact hb⟩
    · -- executeFunctionCall
      intro program name ext argEs line rt isLast res rt' h
      simp only [executeFunctionCall] at h
      cases hrc : resolveCallTarget resolve program name ext with
      | error e => rw [hrc] at h; cases h
      | ok pr =>
        rw [hrc] at h
        obtain ⟨tp, func⟩ := pr
        cases hea : evalArgs argEs rt line with
        | error e => rw [hea] at h; cases h
        | ok argsv =>
          rw [hea] at h
          dsimp only at h
          cases isLast with
          | true =>
            simp only [if_pos] at h
            cases h
            exact ⟨rfl, fun hb => hb⟩
          | false =>
            rw [if_neg (by simp)] at h
            cases htr : runTrampoline resolve n
                { program := tp, func := func, args := argsv } rt with
            | error e => rw [htr] at h; cases h
            | ok rt1 =>
              rw [htr] at h
              cases h
              exact ihTramp _ _ _ htr
    · -- executeConditional
      intro program cond body line rt res rt' h
      simp only [executeConditional] at h
      cases hev : evaluate cond rt line with
      | error e => rw [hev] at h; cases h
      | ok condv =>
        rw [hev] at h
        dsimp only at h
        by_cases ht : truthy condv = true
        · rw [if_pos ht] at h
          exact ihBlock _ _ _ _ _ h
        · rw [if_neg ht] at h
          cases h
          exact ⟨rfl, fun hb => hb⟩
    · -- runTrampoline
      intro tc rt rt' h
      simp only [runTrampoline] at h
      cases hf : executeFunction resolve n tc.program tc.func tc.args rt with
      | error e => rw [hf] at h; cases h
      | ok pr =>
        rw [hf] at h
        obtain ⟨r1, rt1⟩ := pr
        obtain ⟨f1, f2⟩ := ihFun _ _ _ _ _ _ hf
        cases r1 with
        | some tc2 =>
          obtain ⟨t1, t2⟩ := ihTramp _ _ _ h
          exact ⟨t1.trans f1, fun hb => t2 (f2 hb)⟩
        | none =>
          cases h
          exact ⟨f1, f2⟩

/-- The runtime `interpret` starts from (no pre-supplied inputs). -/
def freshRuntime : Runtime :=
  { callStack := [], output := [], breakFlag := false, inputBuffer := [],
    inputIndex := 0 }

/-- A resolver with no reachable external documents. -/
def emptyResolver : Resolver :=
  fun ref => .error (jsError ("File not found: " ++ ref))

/-- C2: `interpret` drives execution as a trampoline: each
`executeFunction` invocation pushes exactly one frame and pops it before
returning, so a successful invocation leaves the call stack exactly as it
found it, and the whole trampoline loop — however many pending tail calls
it consumes — also leaves the call stack exactly as it found it; the call
stack never grows with the number of tail calls taken. -/
theorem c2_trampoline_stack_balance (resolve : Resolver) :
    (∀ fuel program func args rt res rt',
      executeFunction resolve fuel program func args rt = .ok (res, rt') →
        rt'.callStack = rt.callStack)
  ∧ (∀ fuel tc rt rt',
      runTrampoline resolve fuel tc rt = .ok rt' → rt'.callStack = rt.callStack) := by
  constructor
  · intro fuel program func args rt res rt' h
    exact ((execInvariant resolve fuel).1 _ _ _ _ _ _ h).1
  · intro fuel tc rt rt' h
    exact ((execInvariant resolve fuel).2.2.2.2.2 _ _ _ h).1

/-- A function whose body prints, breaks, then prints again. -/
def breakProgMain : FunctionDeclaration :=
  { name := "main", parameters := [],
    body := [.printStatement (.lit (.num 1)) none,
             .breakStatement none,
             .printStatement (.lit (.num 2)) none] }

/-- The one-function program around `breakProgMain`. -/
def breakProg : Program := { functions := [("main", breakProgMain)] }

/-- The state a full run of `breakProg` ends in. -/
def breakProgEnd : Runtime :=
  { callStack := [], output := [.num 1], breakFlag := true, inputBuffer := [],
    inputIndex := 0 }

/-- Witness for C2 at a concrete run. -/
theorem c2_trampoline_stack_balance_witness :
    runTrampoline emptyResolver 10
        { program := breakProg, func := breakProgMain, args := [] } freshRuntime =
      .ok breakProgEnd
  ∧ breakProgEnd.callStack = freshRuntime.callStack :=
  ⟨by rfl, (c2_trampoline_stack_balance emptyResolver).2 10
    { program := breakProg, func := breakProgMain, args := [] }
    freshRuntime breakProgEnd (by rfl)⟩

/-- C3: once the shared break flag is set it is never cleared — every
sequence iteration that sees it stops before executing any statement and
returns no pending call with the state untouched, a whole function
invocation entered with the flag set does nothing beyond its balanced
frame push/pop, and every successful execution step preserves a set
flag, so no further statement of the run executes after the first
executed `BreakStatement`. -/
theorem c3_break_flag_halts (resolve : Resolver) :
    (∀ fuel program stmts rt, rt.breakFlag = true →
      executeBlock resolve (fuel + 1) program stmts rt = .ok (none, rt))
  ∧ (∀ fuel program func args rt, rt.breakFlag = true →
      executeFunction resolve (fuel + 2) program func args rt = .ok (none, rt))
  ∧ (∀ fuel program stmts rt res rt',
      executeBlock resolve fuel program stmts rt = .ok (res, rt') →
        rt.breakFlag = true → rt'.breakFlag = true)
  ∧ (∀ fuel tc rt rt',
      runTrampoline resolve fuel tc rt = .ok rt' →
        rt.breakFlag = true → rt'.breakFlag = true) := by
  have hblock : ∀ fuel program stmts rt, rt.breakFlag = true →
      executeBlock resolve (fuel + 1) program stmts rt = .ok (none, rt) := by
    intro fuel program stmts rt hbf
    cases stmts with
    | nil => simp [executeBlock]
    | cons s rest =>
      simp only [executeBlock]
      rw [hbf]
      simp only [if_pos]
  refine ⟨hblock, ?_, ?_, ?_⟩
  · intro fuel program func args rt hbf
    simp only [executeFunction]
    rw [hblock fuel program func.body
      (rt.pushFrame func.name (bindParams [] func.parameters args) func.parameters)
      hbf]
    rfl
  · intro fuel program stmts rt res rt' h hbf
    exact ((execInvariant resolve fuel).2.1 _ _ _ _ _ h).2 hbf
  · intro fuel tc rt rt' h hbf
    exact ((execInvariant resolve fuel).2.2.2.2.2 _ _ _ h).2 hbf

/-- A runtime whose break flag is already set. -/
def brokenRuntime : Runtime := { freshRuntime with breakFlag := true }

/-- Witness for C3 at concrete inputs. -/
theorem c3_break_flag_halts_witness :
    executeBlock emptyResolver 1 breakProg breakProgMain.body brokenRuntime =
      .ok (none, brokenRuntime)
  ∧ executeFunction emptyResolver 2 breakProg breakProgMain [] brokenRuntime =
      .ok (none, brokenRuntime)
  ∧ brokenRuntime.breakFlag = true :=
  ⟨(c3_break_flag_halts emptyResolver).1 0 breakProg breakProgMain.body
      brokenRuntime rfl,
   (c3_break_flag_halts emptyResolver).2.1 0 breakProg breakProgMain []
      brokenRuntime rfl,
   (c3_break_flag_halts emptyResolver).2.2.2 10
      { program := breakProg, func := breakProgMain, args := [] }
      brokenRuntime brokenRuntime
      (by rfl)
      rfl⟩

/-- C10: evaluating an identifier always succeeds with the current
frame's binding; with no frame, or with the name unbound in the current
frame, the result is `undefined` — never an error. -/
theorem c10_unbound_identifier_undefined (rt : Runtime) (name : String)
    (line : Option Nat) :
    evaluate (.ident name) rt line = .ok (rt.getVariable name)
  ∧ (rt.callStack = [] → rt.getVariable name = .undefined)
  ∧ (∀ fr rest, rt.callStack = fr :: rest → lookupVar fr.vars name = none →
      rt.getVariable name = .undefined) := by
  refine ⟨rfl, ?_, ?_⟩
  · intro h
    simp [Runtime.getVariable, h]
  · intro fr rest h hlk
    simp [Runtime.getVariable, h, hlk]

/-- Witness for C10 at concrete inputs. -/
theorem c10_unbound_identifier_undefined_witness :
    evaluate (.ident "x") freshRuntime none = .ok (freshRuntime.getVariable "x")
  ∧ freshRuntime.getVariable "x" = .undefined :=
  ⟨(c10_unbound_identifier_undefined freshRuntime "x" none).1,
   (c10_unbound_identifier_undefined freshRuntime "x" none).2.1 rfl⟩

/-- C4 counterexample: with a falsy left operand, `&&` still evaluates
the right operand, and a type error raised there propagates — the
operator does not short-circuit evaluation and the result is not one of
the operand values. -/
theorem c4_counterexample_short_circuit :
    evaluate (.binary "&&" (.lit (.bool false))
        (.binary "-" (.lit (.str "x")) (.lit (.num 5)))) freshRuntime none =
      .error (runtimeTypeError
        "Expected number for left operand of -, got string (x)" none) := by
  rfl

/-- C4 (amended): `&&` and `||` evaluate both operand expressions
eagerly — an error from the right operand propagates even when the left
operand alone decides the result — and when both operands evaluate, the
result is one of the two original operand values (`&&`: the left value
when falsy, else the right; `||`: the left value when truthy, else the
right), not necessarily a boolean. -/
theorem c4_logical_operators_eager (rt : Runtime) (line : Option Nat)
    (l r : Expr) (vl : RuntimeValue) (hl : evaluate l rt line = .ok vl) :
    (∀ e, evaluate r rt line = .error e →
      evaluateBinaryExpression "&&" l r rt line = .error e ∧
      evaluateBinaryExpression "||" l r rt line = .error e)
  ∧ (∀ vr, evaluate r rt line = .ok vr →
      evaluateBinaryExpression "&&" l r rt line =
        .ok (if truthy vl then vr else vl) ∧
      evaluateBinaryExpression "||" l r rt line =
        .ok (if truthy vl then vl else vr)) := by
  constructor
  · intro e hr
    constructor <;> simp [evaluateBinaryExpression, hl, hr]
  · intro vr hr
    constructor <;> simp [evaluateBinaryExpression, applyBinaryOperator, hl, hr]

/-- Witness for C4's amended statement at concrete inputs. -/
theorem c4_logical_operators_eager_witness :
    evaluateBinaryExpression "||" (.lit (.str "a")) (.lit (.num 0))
        freshRuntime none =
      .ok (if truthy (.str "a") then .str "a" else .num 0) :=
  ((c4_logical_operators_eager freshRuntime none (.lit (.str "a"))
      (.lit (.num 0)) (.str "a") rfl).2 (.num 0) rfl).2

/-- C5: for `+`, if either evaluated operand is a string the result is
string concatenation with absent values rendered empty; otherwise both
operands must be numbers — numbers add, and any other value (booleans,
absent values) raises a type error naming the offending side. -/
theorem c5_plus_coercion (rt : Runtime) (line : Option Nat) (l r : Expr)
    (vl vr : RuntimeValue) (hl : evaluate l rt line = .ok vl)
    (hr : evaluate r rt line = .ok vr) :
    ((jsTypeof vl = "string" ∨ jsTypeof vr = "string") →
      evaluateBinaryExpression "+" l r rt line =
        .ok (.str (strOrEmpty vl ++ strOrEmpty vr)))
  ∧ (∀ a b, vl = .num a → vr = .num b →
      evaluateBinaryExpression "+" l r rt line = .ok (.num (a + b)))
  ∧ (jsTypeof vl ≠ "string" → jsTypeof vr ≠ "string" → jsTypeof vl ≠ "number" →
      evaluateBinaryExpression "+" l r rt line =
        .error (runtimeTypeError (expectNumberMsg vl "left operand of +") line))
  ∧ (∀ a, vl = .num a → jsTypeof vr ≠ "string" → jsTypeof vr ≠ "number" →
      evaluateBinaryExpression "+" l r rt line =
        .error (runtimeTypeError (expectNumberMsg vr "right operand of +") line)) := by
  refine ⟨?_, ?_, ?_, ?_⟩
  · intro hstr
    cases vl <;> cases vr <;>
      simp_all [evaluateBinaryExpression, applyBinaryOperator, jsTypeof]
  · intro a b ha hb
    subst ha; subst hb
    simp [evaluateBinaryExpression, applyBinaryOperator, hl, hr, expectNumber]
  · intro hnl hnr hln
    cases vl <;> cases vr <;>
      simp_all [evaluateBinaryExpression, applyBinaryOperator, jsTypeof,
        expectNumber]
  · intro a ha hnr hrn
    subst ha
    cases vr <;>
      simp_all [evaluateBinaryExpression, applyBinaryOperator, jsTypeof,
        expectNumber]

/-- Witness for C5 at concrete inputs (`42 + " is the answer"`). -/
theorem c5_plus_coercion_witness :
    evaluateBinaryExpression "+" (.lit (.num 42))
        (.lit (.str " is the answer")) freshRuntime none =
      .ok (.str "42 is the answer") :=
  ((c5_plus_coercion freshRuntime none (.lit (.num 42))
      (.lit (.str " is the answer")) (.num 42) (.str " is the answer")
      rfl rfl).1 (Or.inr rfl)).trans (by rfl)

/-- C6: executing an `AssignmentStatement` whose variable is not in the
current frame's declared set raises the `UndeclaredVariableError` naming
that variable, rather than implicitly creating it. -/
theorem c6_undeclared_assignment_error (resolve : Resolver) (fuel : Nat)
    (program : Program) (rt : Runtime) (fr : CallFrame) (rest : List CallFrame)
    (name : String) (e : Expr) (line : Option Nat) (v : RuntimeValue)
    (isLast : Bool) (hcs : rt.callStack = fr :: rest)
    (hnd : fr.declaredVariables.contains name = false)
    (hev : evaluate e rt line = .ok v) :
    executeStatement resolve (fuel + 1) program
        (.assignmentStatement name none e line) rt isLast =
      .error (.err (undeclaredVariableError name none)) := by
  have hassign : executeAssignment name none e line rt =
      .error (undeclaredVariableError name none) := by
    simp only [executeAssignment]
    rw [hev]
    dsimp only
    unfold Runtime.setVariable
    rw [hcs]
    dsimp only
    rw [hnd]
    simp
  simp only [executeStatement]
  rw [hassign]

/-- A runtime with one frame holding no variables and no declarations. -/
def oneFrameRuntime : Runtime :=
  { callStack := [{ functionName := "main", vars := [], declaredVariables := [] }],
    output := [], breakFlag := false, inputBuffer := [], inputIndex := 0 }

/-- The empty program. -/
def emptyProgram : Program := { functions := [] }

/-- Witness for C6 at concrete inputs (`x = 5` with `x` undeclared). -/
theorem c6_undeclared_assignment_error_witness :
    executeStatement emptyResolver 1 emptyProgram
        (.assignmentStatement "x" none (.lit (.num 5)) none) oneFrameRuntime
        false =
      .error (.err (undeclaredVariableError "x" none)) :=
  c6_undeclared_assignment_error emptyResolver 0 emptyProgram oneFrameRuntime
    { functionName := "main", vars := [], declaredVariables := [] } []
    "x" (.lit (.num 5)) none (.num 5) false rfl rfl rfl

/-- The `f(n)` declaration of the tail-call test program. -/
def tailProgF : FunctionDeclaration := { name := "f", parameters := [], body := [] }

/-- `main` of the tail-call test program: a conditional whose body ends
in a call to `f`, followed by a sibling print statement. -/
def tailProgMain : FunctionDeclaration :=
  { name := "main", parameters := [],
    body := [.conditionalBlock (.lit (.bool true))
               [.functionCallStatement "f" none [] none] none,
             .printStatement (.lit (.num 99)) none] }

/-- The two-function tail-call test program. -/
def tailProg : Program :=
  { functions := [("main", tailProgMain), ("f", tailProgF)] }

/-- C1: a `FunctionCallStatement` in last position is not run eagerly —
once its target resolves and its arguments evaluate, `executeFunctionCall`
returns the pending tail call with the runtime unchanged (no frame is
pushed and nothing of the callee runs, whatever the callee's body costs);
and a pending call produced by a `ConditionalBlock` is returned from the
enclosing sequence iteration immediately: the block's result is that
pending call and is independent of the sibling statements `rest` that
follow the conditional, so they are not executed. -/
theorem c1_tail_call_protocol (resolve : Resolver) (fuel : Nat)
    (program : Program) (rt : Runtime) :
    (∀ name ext argEs line tp func args,
      resolveCallTarget resolve program name ext = .ok (tp, func) →
      evalArgs argEs rt line = .ok args →
      executeFunctionCall resolve (fuel + 1) program name ext argEs line rt true =
        .ok (some { program := tp, func := func, args := args }, rt))
  ∧ (∀ cond body cline tc rt2 rest,
      rt.breakFlag = false →
      executeConditional resolve fuel program cond body cline rt =
        .ok (some tc, rt2) →
      executeBlock resolve (fuel + 2) program
        (Statement.conditionalBlock cond body cline :: rest) rt =
        .ok (some tc, rt2)) := by
  constructor
  · intro name ext argEs line tp func args hrc hea
    simp only [executeFunctionCall]
    rw [hrc]
    dsimp only
    rw [hea]
    dsimp only
    simp only [if_pos]
  · intro cond body cline tc rt2 rest hbf hcond
    have hstmt : executeStatement resolve (fuel + 1) program
        (.conditionalBlock cond body cline) rt rest.isEmpty =
          .ok (some tc, rt2) := by
      simp only [executeStatement]
      exact hcond
    simp only [executeBlock]
    rw [hbf]
    rw [if_neg (by simp)]
    rw [hstmt]

/-- Witness for C1 at concrete inputs. -/
theorem c1_tail_call_protocol_witness :
    executeFunctionCall emptyResolver 1 tailProg "f" none [] none
        freshRuntime true =
      .ok (some { program := tailProg, func := tailProgF, args := [] },
        freshRuntime)
  ∧ executeBlock emptyResolver 6 tailProg tailProgMain.body freshRuntime =
      .ok (some { program := tailProg, func := tailProgF, args := [] },
        freshRuntime) :=
  ⟨(c1_tail_call_protocol emptyResolver 0 tailProg freshRuntime).1
      "f" none [] none tailProg tailProgF [] (by rfl) (by rfl),
   (c1_tail_call_protocol emptyResolver 4 tailProg freshRuntime).2
      (.lit (.bool true)) [.functionCallStatement "f" none [] none] none
      { program := tailProg, func := tailProgF, args := [] } freshRuntime
      [.printStatement (.lit (.num 99)) none] rfl (by rfl)⟩

/-- `popToDepthGo` leaves `min (stackLength) (depth - 1)` levels when
`depth ≥ 2`. -/
theorem popToDepthGo_stackLength (depth : Nat) (h2 : 2 ≤ depth) :
    ∀ (parents : List TParent) (top : List Statement),
      (popToDepthGo depth top parents).stackLength =
        min (parents.length + 1) (depth - 1) := by
  intro parents
  induction parents with
  | nil =>
    intro top
    simp only [popToDepthGo, TCtx.stackLength, List.length_nil]
    omega
  | cons p rest ih =>
    intro top
    simp only [popToDepthGo]
    by_cases hge : rest.length + 2 ≥ depth
    · rw [if_pos hge, ih]
      simp only [List.length_cons]
      omega
    · rw [if_neg hge]
      simp only [TCtx.stackLength, List.length_cons]
      omega

/-- C7: a heading of depth `d ∈ [2,6]` with a current function first
pops the block stack down to `min (current length) (d−1)` levels; a
`ConditionalBlock` is appended (and its body pushed) exactly when the
resulting length is `d−1` and the heading carries nonempty emphasized
text; when the stack came up short (a depth level was skipped) the
heading changes nothing beyond the popping — no conditional is created
and no error is raised. -/
theorem c7_heading_depth_conditional (parseExpr : String → Expr)
    (st : TState) (f : TFunc) (depth : Nat) (children : List MdastNode)
    (line : Option Nat) (hcur : st.current = some f)
    (h2 : 2 ≤ depth) (h6 : depth ≤ 6) :
    ((popToDepth f.ctx depth).stackLength = depth - 1 →
      ∀ txt, extractEmphasisText children = some txt → ¬(txt = "") →
      transformNode parseExpr st (.heading depth children line) =
        { st with current := some { f with ctx :=
          { top := [],
            parents := { stmts := (popToDepth f.ctx depth).top,
                         cond := parseExpr txt, line := line } ::
                       (popToDepth f.ctx depth).parents } } })
  ∧ ((popToDepth f.ctx depth).stackLength ≠ depth - 1 →
      transformNode parseExpr st (.heading depth children line) =
        { st with current := some { f with ctx := popToDepth f.ctx depth } })
  ∧ (popToDepth f.ctx depth).stackLength =
      min f.ctx.stackLength (depth - 1) := by
  refine ⟨?_, ?_, ?_⟩
  · intro hlen txt hemph htxt
    simp only [transformNode]
    rw [if_neg (show ¬(depth = 1) by omega)]
    rw [hcur]
    dsimp only
    rw [if_pos ⟨h2, h6⟩]
    rw [if_pos hlen, hemph]
    dsimp only
    rw [if_neg htxt]
  · intro hlen
    simp only [transformNode]
    rw [if_neg (show ¬(depth = 1) by omega)]
    rw [hcur]
    dsimp only
    rw [if_pos ⟨h2, h6⟩]
    rw [if_neg hlen]
  · exact popToDepthGo_stackLength depth h2 f.ctx.parents f.ctx.top

/-- An expression parser standing in for jsep in concrete instances. -/
def identParse : String → Expr := fun s => .ident s

/-- A block stack three levels deep (a function body with two open
conditionals). -/
def c7Ctx : TCtx :=
  { top := [],
    parents := [{ stmts := [], cond := .ident "c2", line := none },
                { stmts := [], cond := .ident "c1", line := none }] }

/-- A transformer state whose current function carries `c7Ctx`. -/
def c7St : TState :=
  { functions := [],
    current := some { name := "f", parameters := [], ctx := c7Ctx } }

/-- Witness for C7 at concrete inputs (a depth-3 heading over a
three-level stack). -/
theorem c7_heading_depth_conditional_witness :
    transformNode identParse c7St
        (.heading 3 [.emphasis [.text "n > 0"]] (some 5)) =
      { c7St with current := some { name := "f", parameters := [], ctx :=
          { top := [],
            parents := { stmts := (popToDepth c7Ctx 3).top,
                         cond := identParse "n > 0", line := some 5 } ::
                       (popToDepth c7Ctx 3).parents } } } :=
  (c7_heading_depth_conditional identParse c7St
      { name := "f", parameters := [], ctx := c7Ctx } 3
      [.emphasis [.text "n > 0"]] (some 5) rfl (by omega) (by omega)).1
    (by rfl) "n > 0" (by rfl) (by simp)

/-- C8: a thematic break with a current function appends a
`BreakStatement` to the innermost open block and then pops exactly one
level if and only if the stack is deeper than the function body; at the
function-body level the stack is left at one level (the append only). -/
theorem c8_thematic_break_scope (parseExpr : String → Expr) (st : TState)
    (f : TFunc) (line : Option Nat) (hcur : st.current = some f) :
    (f.ctx.parents = [] →
      transformNode parseExpr st (.thematicBreak line) =
        { st with current := some { f with ctx :=
          { top := f.ctx.top ++ [.breakStatement line], parents := [] } } })
  ∧ (∀ p rest, f.ctx.parents = p :: rest →
      transformNode parseExpr st (.thematicBreak line) =
        { st with current := some { f with ctx :=
          { top := p.stmts ++
              [.conditionalBlock p.cond (f.ctx.top ++ [.breakStatement line])
                p.line],
            parents := rest } } }) := by
  constructor
  · intro hp
    simp only [transformNode]
    rw [hcur]
    simp [hp]
  · intro p rest hp
    simp only [transformNode]
    rw [hcur]
    simp [hp, TCtx.popOne]

/-- Witness for C8 at concrete inputs (both the one-level and the
nested case). -/
theorem c8_thematic_break_scope_witness :
    transformNode identParse
        { functions := [],
          current := some
            { name := "f", parameters := [], ctx := { top := [], parents := [] } } }
        (.thematicBreak (some 7)) =
      { functions := [],
        current := some
          { name := "f", parameters := [],
            ctx := { top := [.breakStatement (some 7)], parents := [] } } }
  ∧ transformNode identParse c7St (.thematicBreak (some 9)) =
      { c7St with current := some { name := "f", parameters := [], ctx :=
          { top := [.conditionalBlock (.ident "c2")
              ([] ++ [.breakStatement (some 9)]) none],
            parents := [{ stmts := [], cond := .ident "c1", line := none }] } } } :=
  ⟨(c8_thematic_break_scope identParse
      { functions := [],
        current := some
          { name := "f", parameters := [], ctx := { top := [], parents := [] } } }
      { name := "f", parameters := [], ctx := { top := [], parents := [] } }
      (some 7) rfl).1 rfl,
   (c8_thematic_break_scope identParse c7St
      { name := "f", parameters := [], ctx := c7Ctx } (some 9) rfl).2
      { stmts := [], cond := .ident "c2", line := none }
      [{ stmts := [], cond := .ident "c1", line := none }] rfl⟩

/-- Modelled from the spec: remote references are URL-addressed
documents (spec §4.4); the synchronous resolver recognises them by
scheme (character-level prefix check so it evaluates in the kernel). -/
def isRemoteUrl (s : String) : Bool :=
  s.toList.take 7 = "http://".toList || s.toList.take 8 = "https://".toList

/-- Modelled from the spec: the `ResolutionError` kind of spec §7. -/
def resolutionError (message : String) : ErrObj :=
  { name := "ResolutionError", message := message }

/-- Modelled from the spec: the synchronous `loadExternalProgram` of
the current `packages/core` interpreter (the file is absent from the
sources; its tests assert the message).  A URL reference is a fatal
configuration error in synchronous mode, raised before any file-system
or network access — the model has no network capability at all; a local
reference loads from the supplied host file table, which also stands
for the module cache (spec §4.4/§6). -/
def syncResolver (files : List (String × Program)) : Resolver := fun ref =>
  if isRemoteUrl ref then
    .error (resolutionError "Remote URL imports require interpretAsync")
  else
    match (files.find? (fun entry => entry.1 = ref)).map (·.2) with
    | some p => .ok p
    | none => .error (jsError ("File not found: " ++ ref))

/-- A program whose `main` only prints, while an uncalled function
contains a URL-qualified external call. -/
def urlDeadProg : Program :=
  { functions := [
      ("main", { name := "main", parameters := [],
                 body := [.printStatement (.lit (.str "hi")) none] }),
      ("g", { name := "g", parameters := [],
              body := [.functionCallStatement "double"
                (some "https://example.com/lib.md") [.lit (.num 5)] none] })] }

/-- C9 counterexample: a program *containing* a URL-qualified call that
is never executed runs to completion under the synchronous `interpret`
without raising any error — so containment alone does not make the
synchronous run raise a `ResolutionError`. -/
theorem c9_counterexample_url_dead_code :
    interpret (syncResolver []) 10 urlDeadProg "main" [] [] =
      .ok [.str "hi"] := by
  rfl

/-- C9 (amended): whenever synchronous execution reaches a
`FunctionCallStatement` whose external reference is a URL, resolution
fails with the `ResolutionError` stating that remote URL imports require
the asynchronous mode — before argument evaluation, and without any
file-system or network access (the synchronous resolver has no network
capability); only the asynchronous mode may resolve URL references. -/
theorem c9_sync_url_resolution_error (files : List (String × Program))
    (fuel : Nat) (program : Program) (name ref : String) (argEs : List Expr)
    (line : Option Nat) (rt : Runtime) (isLast : Bool)
    (hurl : isRemoteUrl ref = true) :
    resolveCallTarget (syncResolver files) program name (some ref) =
      .error (resolutionError "Remote URL imports require interpretAsync")
  ∧ executeFunctionCall (syncResolver files) (fuel + 1) program name (some ref)
      argEs line rt isLast =
      .error (.err (resolutionError "Remote URL imports require interpretAsync")) := by
  have h1 : resolveCallTarget (syncResolver files) program name (some ref) =
      .error (resolutionError "Remote URL imports require interpretAsync") := by
    simp [resolveCallTarget, syncResolver, hurl]
  refine ⟨h1, ?_⟩
  simp only [executeFunctionCall]
  rw [h1]

/-- Witness for C9's amended statement at a concrete URL reference. -/
theorem c9_sync_url_resolution_error_witness :
    executeFunctionCall (syncResolver []) 1 urlDeadProg "double"
        (some "https://example.com/lib.md") [.lit (.num 5)] none
        freshRuntime false =
      .error (.err (resolutionError "Remote URL imports require interpretAsync")) :=
  (c9_sync_url_resolution_error [] 0 urlDeadProg "double"
      "https://example.com/lib.md" [.lit (.num 5)] none freshRuntime false
      (by rfl)).2
